import Mathlib

/-
Verification of the incremental-sync core of the Shopify source connector
(file `source_shopify/source.py`).

Modelling conventions (shallow embedding):
  * A Python `dict` with string keys is an association list; lookups take
    the first matching entry and assignment replaces the value of the first
    matching entry in place (appending when the key is absent), which
    coincides with Python dict semantics whenever keys are unique.
  * Cursor values of the timestamp-cursored streams are ISO-8601 strings,
    compared lexicographically by code point exactly as Python compares
    `str` values, so they are modelled as `String` with an executable
    lexicographic comparison `pystrLe`. The id-cursored overrides
    (Collects, OrderRisks) compare integers and are modelled over
    `Int`-valued dictionaries.
  * Request-parameter dictionaries mix string and integer values, so their
    values live in an explicit `Val` type; Python `None` is `Val.none`.
  * Fallible code (KeyError on direct indexing, TypeError on comparison
    with `None`) is modelled with `Option`: `none` is a raised exception.
-/

set_option autoImplicit false

universe u

/-- First-match association-list lookup, the model of Python dict lookup
(`d.get(k)` and `d[k]`, the latter raising on `none`). -/
def alookup {α : Type u} : List (String × α) → String → Option α
  | [], _ => none
  | (k, v) :: rest, key => if k = key then some v else alookup rest key

/-- The model of Python dict assignment `d[k] = v`: replace the value at an
existing key in place, append a fresh entry otherwise. -/
def aset {α : Type u} : List (String × α) → String → α → List (String × α)
  | [], key, v => [(key, v)]
  | (k, w) :: rest, key, v =>
      if k = key then (key, v) :: rest else (k, w) :: aset rest key v

/-- A state dictionary of a timestamp-cursored stream: string cursor values. -/
abbrev StrDict := List (String × String)

/-- A state dictionary of an id-cursored stream: integer cursor values. -/
abbrev IntDict := List (String × Int)

/-- Python values appearing in request-parameter dictionaries. -/
inductive Val : Type where
  | s : String → Val
  | i : Int → Val
  | none : Val
deriving DecidableEq, Repr

/-- A request-parameter dictionary (or pagination token): mixed values. -/
abbrev PDict := List (String × Val)

/-- The mapping from stream name to bridged temporary state
(the `tmp_stream_state` placeholder on the stream classes). -/
abbrev Bridge := List (String × StrDict)

/-- Python `d.get(k, dflt)` over a string-valued dictionary. -/
def strGetD (d : StrDict) (k dflt : String) : String :=
  (alookup d k).getD dflt

/-- Python `d.get(k, dflt)` over an integer-valued dictionary. -/
def intGetD (d : IntDict) (k : String) (dflt : Int) : Int :=
  (alookup d k).getD dflt

/-- Python `d.get(k)` (default `None`) over a string-valued dictionary,
injected into `Val`. -/
def strGetVal (d : StrDict) (k : String) : Val :=
  match alookup d k with
  | some v => Val.s v
  | none => Val.none

/-- Lexicographic comparison of character lists by code point: the order
Python uses on `str`. -/
def charListLe : List Char → List Char → Bool
  | [], _ => true
  | _ :: _, [] => false
  | a :: as, b :: bs => if a < b then true else if b < a then false else charListLe as bs

/-- Python `a <= b` on strings. -/
def pystrLe (a b : String) : Bool :=
  charListLe a.data b.data

/-- Python `a <= b` on integers. -/
def pyintLe (a b : Int) : Bool :=
  a ≤ b

/-- Python `min(a, b)` for a boolean comparison `le`: the first argument is
returned when the two compare equal. -/
def pymin {α : Type u} (le : α → α → Bool) (a b : α) : α :=
  if le a b then a else b

/-- Python `max(a, b)` for a boolean comparison `le`: the first argument is
returned when the two compare equal. -/
def pymax {α : Type u} (le : α → α → Bool) (a b : α) : α :=
  if le b a then a else b

/-- Python `params.update(**src)`: assign every entry of `src` into `d`. -/
def dictUpdate (d src : PDict) : PDict :=
  src.foldl (fun acc p => aset acc p.1 p.2) d

/-- Python `str(v)` as used by the f-string path templates. -/
def valToStr : Val → String
  | Val.s x => x
  | Val.i n => toString n
  | Val.none => "None"

theorem alookup_aset_self {α : Type u} (d : List (String × α)) (k : String) (v : α) :
    alookup (aset d k v) k = some v := by
  induction d with
  | nil => simp [aset, alookup]
  | cons p rest ih =>
      obtain ⟨k0, w⟩ := p
      by_cases h : k0 = k
      · simp [aset, h, alookup]
      · simp [aset, h, alookup, ih]

theorem alookup_aset_ne {α : Type u} (d : List (String × α)) (k k' : String) (v : α)
    (h : k' ≠ k) : alookup (aset d k v) k' = alookup d k' := by
  induction d with
  | nil => simp [aset, alookup, Ne.symm h]
  | cons p rest ih =>
      obtain ⟨k0, w⟩ := p
      by_cases h0 : k0 = k
      · subst h0
        simp [aset, alookup, Ne.symm h]
      · simp [aset, alookup, h0, ih]

theorem charListLe_refl (l : List Char) : charListLe l l = true := by
  induction l with
  | nil => rfl
  | cons a as ih => simp [charListLe, ih]

theorem pystrLe_refl (s : String) : pystrLe s s = true :=
  charListLe_refl s.data

theorem pymin_le_right_str (a b : String) :
    pystrLe (pymin pystrLe a b) b = true := by
  unfold pymin
  by_cases h : pystrLe a b = true
  · simp [h]
  · simp [h, pystrLe_refl]

theorem pymax_absorb {α : Type u} (le : α → α → Bool) (a b : α) :
    pymax le a (pymax le a b) = pymax le a b := by
  unfold pymax
  by_cases h : le b a = true <;> simp [h]

/-
Embedding of the stream class attributes and methods. Class attributes that
the embedded methods read (`limit`, `order_field`, `filter_field`,
`cursor_field`, `start_date`) are explicit arguments of the embedded
methods; the concrete per-class values are recorded as constants below.
-/

/-- Page size class attribute `limit` of `ShopifyStream`. -/
def ShopifyStream.limit : Int := 250

/-- Default `order_field` class attribute of `ShopifyStream`. -/
def ShopifyStream.order_field : String := "updated_at"

/-- Default `filter_field` class attribute of `ShopifyStream`. -/
def ShopifyStream.filter_field : String := "updated_at_min"

/-- Default `cursor_field` class attribute of `IncrementalShopifyStream`. -/
def IncrementalShopifyStream.cursor_field : String := "updated_at"

/-- Cursor field override of the `Collects` stream. -/
def Collects.cursor_field : String := "id"

/-- Order field override of the `Collects` stream. -/
def Collects.order_field : String := "id"

/-- Filter field override of the `Collects` stream. -/
def Collects.filter_field : String := "since_id"

/-- Cursor field override of the `OrderRisks` stream. -/
def OrderRisks.cursor_field : String := "id"

/-- Cursor field override of the `OrderRefunds` stream. -/
def OrderRefunds.cursor_field : String := "created_at"

/-- Hexadecimal digit value, as used by percent-decoding. -/
def hexDigitVal (c : Char) : Option Nat :=
  if '0' ≤ c ∧ c ≤ '9' then some (c.toNat - '0'.toNat)
  else if 'a' ≤ c ∧ c ≤ 'f' then some (c.toNat - 'a'.toNat + 10)
  else if 'A' ≤ c ∧ c ≤ 'F' then some (c.toNat - 'A'.toNat + 10)
  else none

/-- Percent-decoding with plus-to-space, the single-byte core of the Python
`unquote_plus` helper: a valid two-digit escape decodes to its code point,
an invalid escape is kept verbatim. -/
def percentDecodeGo : Nat → List Char → List Char
  | _, [] => []
  | 0, l => l
  | n + 1, c :: rest =>
      if c = '%' then
        match rest with
        | a :: b :: rest2 =>
            match hexDigitVal a, hexDigitVal b with
            | some ha, some hb => Char.ofNat (16 * ha + hb) :: percentDecodeGo n rest2
            | _, _ => '%' :: percentDecodeGo n rest
        | _ => '%' :: percentDecodeGo n rest
      else if c = '+' then ' ' :: percentDecodeGo n rest
      else c :: percentDecodeGo n rest

/-- Percent-decoding of a character list. The fuel of `percentDecodeGo` is
instantiated with the input length and only bounds the recursion; every
step consumes at least one character, so it never runs out. -/
def percentDecode (l : List Char) : List Char :=
  percentDecodeGo l.length l

/-- Splitting of a character list on a separator character, the kernel
computable counterpart of string splitting for the one-character separators
used by the URL parsing helpers. -/
def splitOnChar (c : Char) : List Char → List (List Char)
  | [] => [[]]
  | x :: xs =>
      let r := splitOnChar c xs
      if x = c then [] :: r
      else
        match r with
        | [] => [[x]]
        | h :: t => (x :: h) :: t

/-- Rejoining of split parts with the separator character, the counterpart
of string intercalation. -/
def intercalateChar (c : Char) : List (List Char) → List Char
  | [] => []
  | [x] => x
  | x :: xs => x ++ c :: intercalateChar c xs

/-- Python `unquote_plus` on a string, via `percentDecode`. -/
def unquotePlus (s : List Char) : String :=
  String.mk (percentDecode s)

/-- Python `parse_qsl` with default arguments: split the query string on
ampersands, drop empty fields, fields without an equals sign and fields
with an empty value, split each remaining field at the first equals sign
and percent-decode name and value. -/
def parse_qsl (qs : String) : List (String × String) :=
  (splitOnChar '&' qs.data).filterMap fun field =>
    match splitOnChar '=' field with
    | [] => none
    | [_] => none
    | name :: rest =>
        let value := intercalateChar '=' rest
        if value = [] then none
        else some (unquotePlus name, unquotePlus value)

/-- Query component of a URL, modelling `urlparse(url).query`: the part
after the first question mark, with any fragment removed first. -/
def urlQuery (url : String) : String :=
  let noFrag := (splitOnChar '#' url.data).headD []
  match splitOnChar '?' noFrag with
  | [] => ""
  | [_] => ""
  | _ :: rest => String.mk (intercalateChar '?' rest)

/-- Python `dict(pairs)` on string pairs: later pairs overwrite earlier. -/
def pairsToDict (l : List (String × String)) : StrDict :=
  l.foldl (fun acc p => aset acc p.1 p.2) []

/-- Embedding of `ShopifyStream.next_page_token` (lines 69 to 75). The HTTP
response is modelled by the one piece the method inspects: the URL of the
`next` entry of the response `links` mapping, when present. -/
def ShopifyStream.next_page_token (links_next : Option String) : Option StrDict :=
  match links_next with
  | some url => some (pairsToDict (parse_qsl (urlQuery url)))
  | none => none

/-- Embedding of `ShopifyStream.request_params` (lines 77 to 84). Python
truthiness of the token maps a `None` or empty token to the empty
dictionary. -/
def ShopifyStream.request_params (limit : Int)
    (order_field filter_field start_date : String)
    (next_page_token : PDict) : PDict :=
  let params : PDict := [("limit", Val.i limit)]
  if next_page_token ≠ [] then
    dictUpdate params next_page_token
  else
    aset (aset params "order" (Val.s (order_field ++ " asc"))) filter_field
      (Val.s start_date)

/-- Embedding of `IncrementalShopifyStream.request_params` (lines 144 to
151): call the base implementation, then on the first page re-assign
`order` and, when a stream state exists, point the filter field at
`stream_state.get(cursor_field)` (which is `None` when absent). -/
def IncrementalShopifyStream.request_params (limit : Int)
    (order_field filter_field cursor_field start_date : String)
    (stream_state : StrDict) (next_page_token : PDict) : PDict :=
  let params :=
    ShopifyStream.request_params limit order_field filter_field start_date next_page_token
  if next_page_token = [] then
    let params := aset params "order" (Val.s (order_field ++ " asc"))
    if stream_state ≠ [] then
      aset params filter_field (strGetVal stream_state cursor_field)
    else params
  else params

/-- Embedding of `Orders.request_params` (lines 190 to 196): the base
incremental parameters plus `status = any` on the first page. -/
def Orders.request_params (limit : Int)
    (order_field filter_field cursor_field start_date : String)
    (stream_state : StrDict) (next_page_token : PDict) : PDict :=
  let params :=
    IncrementalShopifyStream.request_params limit order_field filter_field cursor_field
      start_date stream_state next_page_token
  if next_page_token = [] then aset params "status" (Val.s "any") else params

/-- Embedding of `Collects.request_params` (lines 266 to 273): the base
incremental parameters, with the filter field seeded at the integer 0 when
there is neither a token nor a stream state. -/
def Collects.request_params (limit : Int)
    (order_field filter_field cursor_field start_date : String)
    (stream_state : StrDict) (next_page_token : PDict) : PDict :=
  let params :=
    IncrementalShopifyStream.request_params limit order_field filter_field cursor_field
      start_date stream_state next_page_token
  if next_page_token = [] ∧ stream_state = [] then
    aset params filter_field (Val.i 0)
  else params

/-- Embedding of `OrderRisks.request_params` (lines 300 to 307), textually
identical to the Collects override. -/
def OrderRisks.request_params (limit : Int)
    (order_field filter_field cursor_field start_date : String)
    (stream_state : StrDict) (next_page_token : PDict) : PDict :=
  let params :=
    IncrementalShopifyStream.request_params limit order_field filter_field cursor_field
      start_date stream_state next_page_token
  if next_page_token = [] ∧ stream_state = [] then
    aset params filter_field (Val.i 0)
  else params

/-- Embedding of `IncrementalShopifyStream.stream_state_to_tmp` (lines 108
to 134). Python truthiness maps an empty or `None` current state to the
empty dictionary and takes the saved-state branch exactly when the
previously bridged value is a non-empty string. -/
def IncrementalShopifyStream.stream_state_to_tmp (stream_name : String)
    (current_stream_state latest_record : StrDict)
    (state_object : Bridge) (cursor_field : String) : Bridge :=
  let tmp_stream_state_value :=
    strGetD ((alookup state_object stream_name).getD []) cursor_field ""
  if current_stream_state ≠ [] then
    let so :=
      aset state_object stream_name
        [(cursor_field,
          pymin pystrLe (strGetD current_stream_state cursor_field "")
            (strGetD latest_record cursor_field ""))]
    if tmp_stream_state_value ≠ "" then
      aset so stream_name
        [(cursor_field,
          pymin pystrLe (strGetD current_stream_state cursor_field "")
            tmp_stream_state_value)]
    else so
  else state_object

/-- Bridged cursor value of a stream, the expression
`state_object.get(stream_name, ...).get(cursor_field, ...)` with the empty
dictionary and empty string as the respective defaults. -/
def bridgeValue (state_object : Bridge) (stream_name cursor_field : String) : String :=
  strGetD ((alookup state_object stream_name).getD []) cursor_field ""

/-- Embedding of `IncrementalShopifyStream.get_updated_state` (lines 136 to
142): the pair of the updated temporary bridge (the assignment to
`self.tmp_stream_state`) and the returned stream state. -/
def IncrementalShopifyStream.get_updated_state (name cursor_field : String)
    (tmp_stream_state : Bridge)
    (current_stream_state latest_record : StrDict) : Bridge × StrDict :=
  (IncrementalShopifyStream.stream_state_to_tmp name current_stream_state latest_record
      tmp_stream_state cursor_field,
   [(cursor_field,
     pymax pystrLe (strGetD latest_record cursor_field "")
       (strGetD current_stream_state cursor_field ""))])

/-- Embedding of `Collects.get_updated_state` (lines 263 to 264): 0-default
numeric max over the integer id cursor. -/
def Collects.get_updated_state (cursor_field : String)
    (current_stream_state latest_record : IntDict) : IntDict :=
  [(cursor_field,
    pymax pyintLe (intGetD latest_record cursor_field 0)
      (intGetD current_stream_state cursor_field 0))]

/-- Embedding of `OrderRisks.get_updated_state` (lines 297 to 298),
textually identical to the Collects override. -/
def OrderRisks.get_updated_state (cursor_field : String)
    (current_stream_state latest_record : IntDict) : IntDict :=
  [(cursor_field,
    pymax pyintLe (intGetD latest_record cursor_field 0)
      (intGetD current_stream_state cursor_field 0))]

/-- Record loop of `filter_records_newer_than_state` under a truthy state:
`record[cursor_field]` raises KeyError when the field is absent
(`Option.none` here), comparing against a `None` state cursor raises
TypeError (also `Option.none`), and otherwise a record is kept exactly when
its cursor value is at least the state value. -/
def filterNewerGo (cursor_field : String) (state_value : Option String) :
    List StrDict → Option (List StrDict)
  | [] => some []
  | r :: rs =>
      match alookup r cursor_field with
      | none => none
      | some v =>
          match state_value with
          | none => none
          | some sv =>
              match filterNewerGo cursor_field state_value rs with
              | none => none
              | some rest => some (if pystrLe sv v then r :: rest else rest)

/-- Embedding of `IncrementalShopifyStream.filter_records_newer_than_state`
(lines 156 to 163). -/
def IncrementalShopifyStream.filter_records_newer_than_state (cursor_field : String)
    (stream_state : StrDict) (records_slice : List StrDict) : Option (List StrDict) :=
  if stream_state ≠ [] then
    filterNewerGo cursor_field (alookup stream_state cursor_field) records_slice
  else some records_slice

/-- Pure specification of the record filter: keep exactly the records whose
cursor value is at least the state cursor value, preserving order, and pass
every record through when no state exists. -/
def pureFilter (cursor_field : String) (stream_state : StrDict)
    (records : List StrDict) : List StrDict :=
  if stream_state = [] then records
  else records.filter fun r =>
    pystrLe (strGetD stream_state cursor_field "") (strGetD r cursor_field "")

/-- Embedding of `OrderRefunds.path` (lines 282 to 284): direct indexing of
the slice raises KeyError when `order_id` is absent. -/
def OrderRefunds.path (stream_slice : PDict) : Option String :=
  (alookup stream_slice "order_id").map fun order_id =>
    "orders/" ++ valToStr order_id ++ "/refunds.json"

/-- Embedding of `OrderRisks.path` (lines 293 to 295). -/
def OrderRisks.path (stream_slice : PDict) : Option String :=
  (alookup stream_slice "order_id").map fun order_id =>
    "orders/" ++ valToStr order_id ++ "/risks.json"

/-- Embedding of `Transactions.path` (lines 316 to 318). -/
def Transactions.path (stream_slice : PDict) : Option String :=
  (alookup stream_slice "order_id").map fun order_id =>
    "orders/" ++ valToStr order_id ++ "/transactions.json"

/-- Parent-record loop of `OrderSubstream.read_records`: one child fetch
cycle per parent record, sliced by the parent id (indexing raises KeyError
when `id` is absent), each slice fed through the record filter. -/
def OrderSubstream.readGo (cursor_field : String)
    (childRead : PDict → List StrDict) (stream_state : StrDict) :
    List PDict → Option (List StrDict)
  | [] => some []
  | data :: rest =>
      match alookup data "id" with
      | none => none
      | some order_id =>
          match
            IncrementalShopifyStream.filter_records_newer_than_state cursor_field
              stream_state (childRead [("order_id", order_id)]) with
          | none => none
          | some filtered =>
              match OrderSubstream.readGo cursor_field childRead stream_state rest with
              | none => none
              | some out => some (filtered ++ out)

/-- Embedding of `OrderSubstream.read_records` (lines 173 to 181). The
excluded collaborators are abstract: `ordersRead` stands for the full
incremental read of a fresh `Orders` instance given the bridged state
(`self.tmp_stream_state.get` at key `orders`, `None` when absent), and
`childRead` stands for the inherited page loop run against one slice. -/
def OrderSubstream.read_records (cursor_field : String)
    (ordersRead : Option StrDict → List PDict)
    (childRead : PDict → List StrDict)
    (tmp_stream_state : Bridge) (stream_state : StrDict) : Option (List StrDict) :=
  OrderSubstream.readGo cursor_field childRead stream_state
    (ordersRead (alookup tmp_stream_state "orders"))

/-- Specification form of the substream read: the concatenation, over the
parent records in order, of the filtered child slice of each parent. -/
def concatPerParent (cursor_field : String) (childRead : PDict → List StrDict)
    (stream_state : StrDict) : List PDict → List StrDict
  | [] => []
  | data :: rest =>
      pureFilter cursor_field stream_state
          (childRead [("order_id", (alookup data "id").getD Val.none)]) ++
        concatPerParent cursor_field childRead stream_state rest

/-
Helper lemmas shared by the claim theorems.
-/

theorem alookup_eq_none {α : Type u} (l : List (String × α)) (k : String)
    (h : k ∉ l.map Prod.fst) : alookup l k = none := by
  induction l with
  | nil => rfl
  | cons p rest ih =>
      obtain ⟨k0, v0⟩ := p
      simp only [List.map_cons, List.mem_cons] at h
      push_neg at h
      simp [alookup, Ne.symm h.1, ih h.2]

theorem alookup_singleton_self {α : Type u} (k : String) (v : α) :
    alookup [(k, v)] k = some v := by
  simp [alookup]

theorem strGetD_singleton (k x dflt : String) : strGetD [(k, x)] k dflt = x := by
  simp [strGetD, alookup]

theorem alookup_dictUpdate_of_none (d t : PDict) (k : String)
    (h : alookup t k = none) :
    alookup (dictUpdate d t) k = alookup d k := by
  induction t generalizing d with
  | nil => rfl
  | cons p rest ih =>
      obtain ⟨k0, v0⟩ := p
      have hstep : dictUpdate d ((k0, v0) :: rest) = dictUpdate (aset d k0 v0) rest := rfl
      rw [hstep]
      by_cases hk : k0 = k
      · subst hk
        simp [alookup] at h
      · simp only [alookup, if_neg hk] at h
        rw [ih (aset d k0 v0) h, alookup_aset_ne d k0 k v0 (fun hh => hk hh.symm)]

theorem alookup_dictUpdate_of_some (d t : PDict) (k : String) (v : Val)
    (hnd : (t.map Prod.fst).Nodup) (h : alookup t k = some v) :
    alookup (dictUpdate d t) k = some v := by
  induction t generalizing d with
  | nil => simp [alookup] at h
  | cons p rest ih =>
      obtain ⟨k0, v0⟩ := p
      have hstep : dictUpdate d ((k0, v0) :: rest) = dictUpdate (aset d k0 v0) rest := rfl
      rw [hstep]
      rw [List.map_cons, List.nodup_cons] at hnd
      by_cases hk : k0 = k
      · subst hk
        have hv0 : v0 = v := by simpa [alookup] using h
        subst hv0
        have hrest : alookup rest k0 = none :=
          alookup_eq_none rest k0 hnd.1
        rw [alookup_dictUpdate_of_none (aset d k0 v0) rest k0 hrest,
          alookup_aset_self]
      · simp only [alookup, if_neg hk] at h
        exact ih (aset d k0 v0) hnd.2 h

theorem bridgeValue_stream_state_to_tmp (stream_name cursor_field : String)
    (cur latest : StrDict) (b : Bridge) (h : cur ≠ []) :
    bridgeValue
        (IncrementalShopifyStream.stream_state_to_tmp stream_name cur latest b cursor_field)
        stream_name cursor_field =
      if bridgeValue b stream_name cursor_field = "" then
        pymin pystrLe (strGetD cur cursor_field "") (strGetD latest cursor_field "")
      else
        pymin pystrLe (strGetD cur cursor_field "")
          (bridgeValue b stream_name cursor_field) := by
  unfold IncrementalShopifyStream.stream_state_to_tmp
  rw [if_pos h]
  by_cases hb : bridgeValue b stream_name cursor_field = ""
  · have hb2 : ¬ strGetD ((alookup b stream_name).getD []) cursor_field "" ≠ "" := by
      simpa [bridgeValue] using hb
    rw [if_neg hb2, if_pos hb]
    unfold bridgeValue
    rw [alookup_aset_self]
    simp [strGetD_singleton]
  · have hb2 : strGetD ((alookup b stream_name).getD []) cursor_field "" ≠ "" := by
      simpa [bridgeValue] using hb
    rw [if_pos hb2, if_neg hb]
    unfold bridgeValue
    rw [alookup_aset_self]
    simp [strGetD_singleton]

theorem filterNewerGo_eq_filter (cursor_field sv : String) (records : List StrDict)
    (h : ∀ r ∈ records, (alookup r cursor_field).isSome) :
    filterNewerGo cursor_field (some sv) records =
      some (records.filter fun r => pystrLe sv (strGetD r cursor_field "")) := by
  induction records with
  | nil => simp [filterNewerGo]
  | cons r rs ih =>
      obtain ⟨v, hv⟩ :=
        Option.isSome_iff_exists.mp (h r (List.mem_cons_self r rs))
      have ih2 := ih fun x hx => h x (List.mem_cons_of_mem r hx)
      rw [List.filter_cons]
      unfold filterNewerGo
      rw [hv, ih2]
      simp [strGetD, hv]

theorem filter_records_eq_pureFilter (cursor_field : String) (stream_state : StrDict)
    (records : List StrDict)
    (hs : stream_state = [] ∨ (alookup stream_state cursor_field).isSome)
    (hr : ∀ r ∈ records, (alookup r cursor_field).isSome) :
    IncrementalShopifyStream.filter_records_newer_than_state cursor_field stream_state
        records = some (pureFilter cursor_field stream_state records) := by
  by_cases hst : stream_state = []
  · subst hst
    simp [IncrementalShopifyStream.filter_records_newer_than_state, pureFilter]
  · rcases hs with hs | hs
    · exact absurd hs hst
    · obtain ⟨sv, hsv⟩ := Option.isSome_iff_exists.mp hs
      unfold IncrementalShopifyStream.filter_records_newer_than_state pureFilter
      rw [if_pos hst, if_neg hst, hsv, filterNewerGo_eq_filter cursor_field sv records hr]
      simp [strGetD, hsv]

theorem filterNewerGo_none_of_missing (cursor_field : String) (sv : Option String)
    (records : List StrDict) (r : StrDict) (hmem : r ∈ records)
    (h : alookup r cursor_field = none) :
    filterNewerGo cursor_field sv records = none := by
  induction records with
  | nil => cases hmem
  | cons x xs ih =>
      unfold filterNewerGo
      rcases List.mem_cons.mp hmem with h1 | h1
      · subst h1
        rw [h]
      · cases hx : alookup x cursor_field
        · rfl
        · cases sv with
          | none => rfl
          | some s => rw [ih h1]

theorem readGo_eq_concat (cursor_field : String) (childRead : PDict → List StrDict)
    (stream_state : StrDict) (parents : List PDict)
    (hs : stream_state = [] ∨ (alookup stream_state cursor_field).isSome)
    (hid : ∀ p ∈ parents, (alookup p "id").isSome)
    (hc : ∀ s, ∀ r ∈ childRead s, (alookup r cursor_field).isSome) :
    OrderSubstream.readGo cursor_field childRead stream_state parents =
      some (concatPerParent cursor_field childRead stream_state parents) := by
  induction parents with
  | nil => simp [OrderSubstream.readGo, concatPerParent]
  | cons p ps ih =>
      obtain ⟨oid, hoid⟩ :=
        Option.isSome_iff_exists.mp (hid p (List.mem_cons_self p ps))
      have hfilter :=
        filter_records_eq_pureFilter cursor_field stream_state
          (childRead [("order_id", oid)]) hs (hc [("order_id", oid)])
      have ih2 := ih fun x hx => hid x (List.mem_cons_of_mem p hx)
      unfold OrderSubstream.readGo concatPerParent
      rw [hoid]
      simp only [Option.getD_some, hfilter, ih2]

/-
Claim theorems.
-/

/-- C1 counterexample: with prior bridged value 5, current state 9 and
latest record 1, the computed minimum of current and latest is 1 and the
claim demands min of that with the prior value, namely 1; the code instead
stores 5, because the saved-state branch takes the minimum of the current
state with the prior value and ignores the latest record. The last two
conjuncts show the same failure for two successive calls yielding computed
values V1 = 5 then V2 = 1: the bridged value is 5, not min of V1 and V2. -/
theorem stream_state_to_tmp_drops_latest_record :
    bridgeValue
        (IncrementalShopifyStream.stream_state_to_tmp "orders" [("updated_at", "9")]
          [("updated_at", "1")] [("orders", [("updated_at", "5")])] "updated_at")
        "orders" "updated_at" = "5" ∧
    pymin pystrLe
        (pymin pystrLe (strGetD [("updated_at", "9")] "updated_at" "")
          (strGetD [("updated_at", "1")] "updated_at" ""))
        (bridgeValue [("orders", [("updated_at", "5")])] "orders" "updated_at") = "1" ∧
    ("5" : String) ≠ "1" ∧
    bridgeValue
        (IncrementalShopifyStream.stream_state_to_tmp "orders" [("updated_at", "9")]
          [("updated_at", "1")]
          (IncrementalShopifyStream.stream_state_to_tmp "orders" [("updated_at", "5")]
            [("updated_at", "9")] [] "updated_at")
          "updated_at")
        "orders" "updated_at" = "5" ∧
    pymin pystrLe (pymin pystrLe "5" "9") (pymin pystrLe "9" "1") = "1" := by
  refine ⟨by decide, by decide, by decide, by decide, by decide⟩

/-- C1 (amended): when the current state is non-empty, `stream_state_to_tmp`
sets the bridged value to the minimum of the current state and the latest
record if no prior non-empty bridged value exists, and otherwise to the
minimum of the current state and the prior bridged value, ignoring the
latest record; consequently, after two successive calls starting from an
empty bridge the bridged value is the minimum of the second current state
and the first computed value V1 (when V1 is non-empty), not min of V1
and V2. -/
theorem stream_state_to_tmp_bridged_value_amended (sn cf : String)
    (cur latest cur1 latest1 cur2 latest2 : StrDict) (b : Bridge)
    (h : cur ≠ []) (h1 : cur1 ≠ []) (h2 : cur2 ≠ []) :
    (bridgeValue (IncrementalShopifyStream.stream_state_to_tmp sn cur latest b cf) sn cf =
      if bridgeValue b sn cf = "" then
        pymin pystrLe (strGetD cur cf "") (strGetD latest cf "")
      else pymin pystrLe (strGetD cur cf "") (bridgeValue b sn cf)) ∧
    (bridgeValue
        (IncrementalShopifyStream.stream_state_to_tmp sn cur2 latest2
          (IncrementalShopifyStream.stream_state_to_tmp sn cur1 latest1 [] cf) cf) sn cf =
      if pymin pystrLe (strGetD cur1 cf "") (strGetD latest1 cf "") = "" then
        pymin pystrLe (strGetD cur2 cf "") (strGetD latest2 cf "")
      else
        pymin pystrLe (strGetD cur2 cf "")
          (pymin pystrLe (strGetD cur1 cf "") (strGetD latest1 cf ""))) := by
  constructor
  · exact bridgeValue_stream_state_to_tmp sn cf cur latest b h
  · have hempty : bridgeValue ([] : Bridge) sn cf = "" := rfl
    have hb1 := bridgeValue_stream_state_to_tmp sn cf cur1 latest1 [] h1
    rw [hempty, if_pos rfl] at hb1
    have hb2 := bridgeValue_stream_state_to_tmp sn cf cur2 latest2
      (IncrementalShopifyStream.stream_state_to_tmp sn cur1 latest1 [] cf) h2
    rw [hb1] at hb2
    exact hb2

/-- Witness for the amended C1 theorem at concrete inputs: with prior
bridged value 5 and current state 9 the update stores min of 9 and 5. -/
theorem stream_state_to_tmp_bridged_value_amended_witness :
    bridgeValue
        (IncrementalShopifyStream.stream_state_to_tmp "orders" [("updated_at", "9")]
          [("updated_at", "1")] [("orders", [("updated_at", "5")])] "updated_at")
        "orders" "updated_at" =
      pymin pystrLe (strGetD [("updated_at", "9")] "updated_at" "")
        (bridgeValue [("orders", [("updated_at", "5")])] "orders" "updated_at") := by
  have h := (stream_state_to_tmp_bridged_value_amended "orders" "updated_at"
      [("updated_at", "9")] [("updated_at", "1")] [("updated_at", "9")]
      [("updated_at", "1")] [("updated_at", "9")] [("updated_at", "1")]
      [("orders", [("updated_at", "5")])] (by decide) (by decide) (by decide)).1
  rw [h]
  decide

/-- C4 (confirmed): once a non-empty value is recorded in the temporary
state bridge for a stream, a later bridge update for that stream never
replaces it with a strictly larger value: the new bridged value compares
less than or equal to the previously recorded one. -/
theorem tmp_bridge_value_non_increasing (sn cf : String) (cur latest : StrDict)
    (b : Bridge) (h : bridgeValue b sn cf ≠ "") :
    pystrLe
        (bridgeValue (IncrementalShopifyStream.stream_state_to_tmp sn cur latest b cf)
          sn cf)
        (bridgeValue b sn cf) = true := by
  by_cases hc : cur = []
  · subst hc
    unfold IncrementalShopifyStream.stream_state_to_tmp
    simp [pystrLe_refl]
  · rw [bridgeValue_stream_state_to_tmp sn cf cur latest b hc, if_neg h]
    exact pymin_le_right_str _ _

/-- Witness for C4 at concrete inputs: recorded value 5, incoming current
state 3, new bridged value compares less than or equal to 5. -/
theorem tmp_bridge_value_non_increasing_witness :
    pystrLe
        (bridgeValue
          (IncrementalShopifyStream.stream_state_to_tmp "orders" [("updated_at", "3")]
            [("updated_at", "7")] [("orders", [("updated_at", "5")])] "updated_at")
          "orders" "updated_at")
        (bridgeValue [("orders", [("updated_at", "5")])] "orders" "updated_at") = true :=
  tmp_bridge_value_non_increasing "orders" "updated_at" [("updated_at", "3")]
    [("updated_at", "7")] [("orders", [("updated_at", "5")])] (by decide)

/-- C9 (confirmed): with an empty incoming current stream state,
`stream_state_to_tmp` returns the bridge completely unchanged for every
latest record and prior bridge, so on a first-ever sync the bridge stays
empty and the substream read consults an absent (None) parent state. -/
theorem stream_state_to_tmp_empty_current_state (sn cf cursor : String)
    (latest : StrDict) (b : Bridge) (ordersRead : Option StrDict → List PDict)
    (childRead : PDict → List StrDict) (state : StrDict) :
    IncrementalShopifyStream.stream_state_to_tmp sn [] latest b cf = b ∧
    alookup ([] : Bridge) "orders" = none ∧
    OrderSubstream.read_records cursor ordersRead childRead [] state =
      OrderSubstream.readGo cursor childRead state (ordersRead none) := by
  refine ⟨?_, rfl, rfl⟩
  unfold IncrementalShopifyStream.stream_state_to_tmp
  simp

/-- C3 (confirmed): `get_updated_state` returns the singleton state mapping
the cursor field to the maximum of the latest record and current state
cursor values with empty-string defaults; the Collects and OrderRisks
overrides use 0-default numeric max and agree with each other; both forms
are idempotent under repeated application with the same record. -/
theorem get_updated_state_max_semantics (name cf : String) (tmp tmp2 : Bridge)
    (cur latest : StrDict) (curI latestI : IntDict) :
    (IncrementalShopifyStream.get_updated_state name cf tmp cur latest).2 =
        [(cf, pymax pystrLe (strGetD latest cf "") (strGetD cur cf ""))] ∧
    Collects.get_updated_state cf curI latestI =
        [(cf, pymax pyintLe (intGetD latestI cf 0) (intGetD curI cf 0))] ∧
    OrderRisks.get_updated_state cf curI latestI =
        Collects.get_updated_state cf curI latestI ∧
    (IncrementalShopifyStream.get_updated_state name cf tmp2
        (IncrementalShopifyStream.get_updated_state name cf tmp cur latest).2 latest).2 =
      (IncrementalShopifyStream.get_updated_state name cf tmp cur latest).2 ∧
    Collects.get_updated_state cf (Collects.get_updated_state cf curI latestI) latestI =
      Collects.get_updated_state cf curI latestI := by
  refine ⟨rfl, rfl, rfl, ?_, ?_⟩
  · unfold IncrementalShopifyStream.get_updated_state
    simp [strGetD_singleton, pymax_absorb]
  · unfold Collects.get_updated_state
    simp [intGetD, alookup, pymax_absorb]

/-- C5 (confirmed): with a non-empty state whose cursor value is sv and
records that all carry the cursor field, `filter_records_newer_than_state`
yields exactly the records whose cursor value is at least sv, preserving
order (records strictly below sv are dropped, equal values kept); with no
state it yields every record unchanged. -/
theorem filter_records_newer_than_state_spec (cf sv : String) (state : StrDict)
    (records : List StrDict)
    (hsv : alookup state cf = some sv)
    (hr : ∀ r ∈ records, (alookup r cf).isSome) :
    IncrementalShopifyStream.filter_records_newer_than_state cf state records =
        some (records.filter fun r => pystrLe sv (strGetD r cf "")) ∧
    IncrementalShopifyStream.filter_records_newer_than_state cf [] records =
        some records := by
  constructor
  · have hne : state ≠ [] := by
      intro hempty
      subst hempty
      simp [alookup] at hsv
    unfold IncrementalShopifyStream.filter_records_newer_than_state
    rw [if_pos hne, hsv]
    exact filterNewerGo_eq_filter cf sv records hr
  · simp [IncrementalShopifyStream.filter_records_newer_than_state]

/-- Witness for C5 at the concrete inputs of the specification: state cursor
2021-06-01 keeps exactly the records dated 2021-06-01 and 2021-07-01. -/
theorem filter_records_newer_than_state_spec_witness :
    IncrementalShopifyStream.filter_records_newer_than_state "created_at"
        [("created_at", "2021-06-01")]
        [[("created_at", "2021-05-01")], [("created_at", "2021-06-01")],
          [("created_at", "2021-07-01")]] =
      some [[("created_at", "2021-06-01")], [("created_at", "2021-07-01")]] := by
  have h := (filter_records_newer_than_state_spec "created_at" "2021-06-01"
      [("created_at", "2021-06-01")]
      [[("created_at", "2021-05-01")], [("created_at", "2021-06-01")],
        [("created_at", "2021-07-01")]] (by decide) (by decide)).1
  rw [h]
  decide

/-- C10 counterexample: the totality part of the claim fails because a
record precondition alone does not protect the comparison against a `None`
state cursor: with the non-empty state mapping only the key foo, every
record carries the cursor field, yet the operation raises (a TypeError
comparing with None), modelled as `Option.none`. -/
theorem filter_records_state_missing_cursor_counterexample :
    IncrementalShopifyStream.filter_records_newer_than_state "created_at"
        [("foo", "1")] [[("created_at", "2021-01-01")]] = none ∧
    (alookup ([("created_at", "2021-01-01")] : StrDict) "created_at").isSome = true ∧
    ([("foo", "1")] : StrDict) ≠ [] := by
  refine ⟨by decide, by decide, by decide⟩

/-- C10 (amended): with a non-empty state, `filter_records_newer_than_state`
fails on any record lacking the cursor field (direct indexing, a KeyError);
it is total under the precondition that every record carries the cursor
field AND the state itself carries the cursor field; with no state, records
lacking the cursor field pass through without error. -/
theorem filter_records_key_safety (cf sv : String) (state : StrDict)
    (records : List StrDict) (r : StrDict) :
    (state ≠ [] → r ∈ records → alookup r cf = none →
      IncrementalShopifyStream.filter_records_newer_than_state cf state records = none) ∧
    (alookup state cf = some sv → (∀ x ∈ records, (alookup x cf).isSome) →
      (IncrementalShopifyStream.filter_records_newer_than_state cf state records).isSome) ∧
    IncrementalShopifyStream.filter_records_newer_than_state cf [] records =
      some records := by
  refine ⟨?_, ?_, ?_⟩
  · intro hne hmem hnone
    unfold IncrementalShopifyStream.filter_records_newer_than_state
    rw [if_pos hne]
    exact filterNewerGo_none_of_missing cf (alookup state cf) records r hmem hnone
  · intro hsv hr
    have hne : state ≠ [] := by
      intro hempty
      subst hempty
      simp [alookup] at hsv
    unfold IncrementalShopifyStream.filter_records_newer_than_state
    rw [if_pos hne, hsv, filterNewerGo_eq_filter cf sv records hr]
    rfl
  · simp [IncrementalShopifyStream.filter_records_newer_than_state]

/-- Witness for the amended C10 theorem at concrete inputs: a record without
the cursor field makes the filter raise, and well-formed state and records
make it succeed. -/
theorem filter_records_key_safety_witness :
    IncrementalShopifyStream.filter_records_newer_than_state "created_at"
        [("created_at", "2021-01-01")] [[("other", "x")]] = none ∧
    (IncrementalShopifyStream.filter_records_newer_than_state "created_at"
        [("created_at", "2021-01-01")] [[("created_at", "2021-02-02")]]).isSome = true := by
  constructor
  · exact (filter_records_key_safety "created_at" "2021-01-01"
        [("created_at", "2021-01-01")] [[("other", "x")]] [("other", "x")]).1
      (by decide) (by decide) (by decide)
  · exact (filter_records_key_safety "created_at" "2021-01-01"
        [("created_at", "2021-01-01")] [[("created_at", "2021-02-02")]] []).2.1
      (by decide) (by decide)

/-- C7 counterexample: a present but malformed next-page link does not make
`next_page_token` return None; it returns an empty mapping (which is falsy
but is not None, as the claim states). -/
theorem next_page_token_malformed_counterexample :
    ShopifyStream.next_page_token (some "malformed-link-with-no-query") = some [] ∧
    some ([] : StrDict) ≠ (none : Option StrDict) := by
  refine ⟨by decide, by decide⟩

/-- C7 (amended): `next_page_token` returns None exactly when the response
has no next-page link; whenever a link is present it returns the (possibly
empty) mapping parsed from the query component of the link URL, so a
malformed or query-less link yields the empty mapping (falsy, hence still
terminating pagination downstream) rather than None, and a well-formed
link yields its query parameters. -/
theorem next_page_token_amended (url : String) :
    ShopifyStream.next_page_token none = none ∧
    ShopifyStream.next_page_token (some url) =
      some (pairsToDict (parse_qsl (urlQuery url))) ∧
    ShopifyStream.next_page_token
        (some "https://test.myshopify.com/admin/api/2021-07/products.json?page_info=token123&limit=250") =
      some [("page_info", "token123"), ("limit", "250")] ∧
    ShopifyStream.next_page_token (some "no-query-component") = some [] := by
  refine ⟨rfl, rfl, by decide, by decide⟩

/-- C8 (confirmed): the substream read drives the parent Orders read from
the bridged temporary orders state and concatenates, in parent order, one
filtered child fetch cycle per parent record, sliced by that parent id;
the path of each child class embeds the parent id between the prefix
orders/ and the /resource.json suffix. -/
theorem order_substream_read_records_spec (cursor_field : String)
    (ordersRead : Option StrDict → List PDict) (childRead : PDict → List StrDict)
    (tmp : Bridge) (state : StrDict)
    (hs : state = [] ∨ (alookup state cursor_field).isSome)
    (hid : ∀ p ∈ ordersRead (alookup tmp "orders"), (alookup p "id").isSome)
    (hc : ∀ s, ∀ r ∈ childRead s, (alookup r cursor_field).isSome) :
    OrderSubstream.read_records cursor_field ordersRead childRead tmp state =
      some (concatPerParent cursor_field childRead state
        (ordersRead (alookup tmp "orders"))) ∧
    (∀ v, OrderRefunds.path [("order_id", v)] =
      some ("orders/" ++ valToStr v ++ "/refunds.json")) ∧
    (∀ v, OrderRisks.path [("order_id", v)] =
      some ("orders/" ++ valToStr v ++ "/risks.json")) ∧
    (∀ v, Transactions.path [("order_id", v)] =
      some ("orders/" ++ valToStr v ++ "/transactions.json")) := by
  refine ⟨?_, ?_, ?_, ?_⟩
  · unfold OrderSubstream.read_records
    exact readGo_eq_concat cursor_field childRead state
      (ordersRead (alookup tmp "orders")) hs hid hc
  · intro v
    simp [OrderRefunds.path, alookup]
  · intro v
    simp [OrderRisks.path, alookup]
  · intro v
    simp [Transactions.path, alookup]

/-- Witness for C8 at concrete inputs: two parent orders with ids 1 and 2,
a constant child fetch, empty bridge and empty child state yield the two
filtered child slices concatenated in parent order. -/
theorem order_substream_read_records_spec_witness :
    OrderSubstream.read_records "created_at"
        (fun _ => [[("id", Val.i 1)], [("id", Val.i 2)]])
        (fun _ => [[("created_at", "2021-07-02")]]) [] [] =
      some [[("created_at", "2021-07-02")], [("created_at", "2021-07-02")]] := by
  have hc : ∀ s : PDict, ∀ r ∈ (fun _ : PDict => [[("created_at", "2021-07-02")]]) s,
      (alookup r "created_at").isSome := by
    intro s r hr
    rw [List.mem_singleton.mp hr]
    decide
  have h := (order_substream_read_records_spec "created_at"
      (fun _ => [[("id", Val.i 1)], [("id", Val.i 2)]])
      (fun _ => [[("created_at", "2021-07-02")]]) [] []
      (Or.inl rfl) (by decide) hc).1
  rw [h]
  decide

/-- C2 counterexample: a request issued with the non-empty pagination token
containing only page_info still sends the limit parameter, which is not
among the token key/value pairs, so the parameters are not ONLY the token
parameters. -/
theorem request_params_token_extra_limit_counterexample :
    alookup (IncrementalShopifyStream.request_params ShopifyStream.limit
        ShopifyStream.order_field ShopifyStream.filter_field
        IncrementalShopifyStream.cursor_field "2021-07-01" []
        [("page_info", Val.s "abc")]) "limit" = some (Val.i 250) ∧
    alookup ([("page_info", Val.s "abc")] : PDict) "limit" = none := by
  refine ⟨by decide, by decide⟩

/-- C2 (amended): with a non-empty pagination token (of distinct keys, as
produced by parsing a query string into a dict), the request parameters are
exactly the token parameters plus the page-size limit parameter (whose
token value wins when the token itself carries a limit key): every token
entry is sent unchanged, every key outside the token other than limit is
absent — in particular no order and no filter-field parameter is added —
and the incremental override coincides with the base class behaviour. -/
theorem request_params_with_token_amended (limit : Int)
    (order_field filter_field cursor_field start_date : String)
    (stream_state : StrDict) (t : PDict)
    (ht : t ≠ []) (hnd : (t.map Prod.fst).Nodup) :
    (∀ k v, alookup t k = some v →
      alookup (IncrementalShopifyStream.request_params limit order_field filter_field
        cursor_field start_date stream_state t) k = some v) ∧
    (alookup t "limit" = none →
      alookup (IncrementalShopifyStream.request_params limit order_field filter_field
        cursor_field start_date stream_state t) "limit" = some (Val.i limit)) ∧
    (∀ k, alookup t k = none → k ≠ "limit" →
      alookup (IncrementalShopifyStream.request_params limit order_field filter_field
        cursor_field start_date stream_state t) k = none) ∧
    IncrementalShopifyStream.request_params limit order_field filter_field cursor_field
        start_date stream_state t =
      ShopifyStream.request_params limit order_field filter_field start_date t := by
  have hsame : IncrementalShopifyStream.request_params limit order_field filter_field
      cursor_field start_date stream_state t =
      ShopifyStream.request_params limit order_field filter_field start_date t := by
    unfold IncrementalShopifyStream.request_params
    rw [if_neg ht]
  have hbase : ShopifyStream.request_params limit order_field filter_field start_date t =
      dictUpdate [("limit", Val.i limit)] t := by
    unfold ShopifyStream.request_params
    rw [if_pos ht]
  refine ⟨?_, ?_, ?_, hsame⟩
  · intro k v hk
    rw [hsame, hbase]
    exact alookup_dictUpdate_of_some [("limit", Val.i limit)] t k v hnd hk
  · intro hnone
    rw [hsame, hbase, alookup_dictUpdate_of_none [("limit", Val.i limit)] t "limit" hnone]
    simp [alookup]
  · intro k hnone hklim
    rw [hsame, hbase, alookup_dictUpdate_of_none [("limit", Val.i limit)] t k hnone]
    simp [alookup, Ne.symm hklim]

/-- Witness for the amended C2 theorem at a concrete token: page_info is
forwarded, limit is added, and the order parameter stays absent. -/
theorem request_params_with_token_amended_witness :
    alookup (IncrementalShopifyStream.request_params 250 "updated_at" "updated_at_min"
        "updated_at" "2021-07-01" [] [("page_info", Val.s "abc")]) "page_info" =
      some (Val.s "abc") ∧
    alookup (IncrementalShopifyStream.request_params 250 "updated_at" "updated_at_min"
        "updated_at" "2021-07-01" [] [("page_info", Val.s "abc")]) "order" = none := by
  have h := request_params_with_token_amended 250 "updated_at" "updated_at_min"
    "updated_at" "2021-07-01" [] [("page_info", Val.s "abc")] (by decide) (by decide)
  exact ⟨h.1 "page_info" (Val.s "abc") (by decide),
    h.2.2.1 "order" (by decide) (by decide)⟩

/-- C6 (confirmed): on the first page (no pagination token) the incremental
request parameters contain order set to the order field followed by asc,
and the filter field set to the state cursor value when a state exists and
to the start date otherwise; the id-cursored Collects and OrderRisks
overrides instead seed the filter field with the integer 0 when no state
exists, and behave like the base incremental class when a state exists.
The field-name hypotheses hold for every stream of the connector. -/
theorem first_page_request_params_spec (limit : Int)
    (order_field filter_field cursor_field start_date : String)
    (stream_state : StrDict)
    (hf1 : filter_field ≠ "order") :
    alookup (IncrementalShopifyStream.request_params limit order_field filter_field
        cursor_field start_date stream_state []) "order" =
      some (Val.s (order_field ++ " asc")) ∧
    (stream_state = [] →
      alookup (IncrementalShopifyStream.request_params limit order_field filter_field
          cursor_field start_date stream_state []) filter_field =
        some (Val.s start_date)) ∧
    (stream_state ≠ [] →
      alookup (IncrementalShopifyStream.request_params limit order_field filter_field
          cursor_field start_date stream_state []) filter_field =
        some (strGetVal stream_state cursor_field)) ∧
    alookup (Collects.request_params limit order_field filter_field cursor_field
        start_date stream_state []) "order" = some (Val.s (order_field ++ " asc")) ∧
    (stream_state = [] →
      alookup (Collects.request_params limit order_field filter_field cursor_field
          start_date stream_state []) filter_field = some (Val.i 0)) ∧
    (stream_state ≠ [] →
      alookup (Collects.request_params limit order_field filter_field cursor_field
          start_date stream_state []) filter_field =
        some (strGetVal stream_state cursor_field)) ∧
    OrderRisks.request_params limit order_field filter_field cursor_field start_date
        stream_state [] =
      Collects.request_params limit order_field filter_field cursor_field start_date
        stream_state [] := by
  have hord : ("order" : String) ≠ filter_field := Ne.symm hf1
  have hbase : ShopifyStream.request_params limit order_field filter_field start_date [] =
      aset (aset [("limit", Val.i limit)] "order" (Val.s (order_field ++ " asc")))
        filter_field (Val.s start_date) := by
    unfold ShopifyStream.request_params
    simp
  have hinc : ∀ st : StrDict,
      IncrementalShopifyStream.request_params limit order_field filter_field cursor_field
          start_date st [] =
        if st = [] then
          aset (ShopifyStream.request_params limit order_field filter_field start_date [])
            "order" (Val.s (order_field ++ " asc"))
        else
          aset (aset (ShopifyStream.request_params limit order_field filter_field
              start_date []) "order" (Val.s (order_field ++ " asc"))) filter_field
            (strGetVal st cursor_field) := by
    intro st
    unfold IncrementalShopifyStream.request_params
    by_cases hst : st = []
    · simp [hst]
    · simp [hst]
  have hcoll : ∀ st : StrDict,
      Collects.request_params limit order_field filter_field cursor_field start_date
          st [] =
        if st = [] then
          aset (IncrementalShopifyStream.request_params limit order_field filter_field
            cursor_field start_date st []) filter_field (Val.i 0)
        else
          IncrementalShopifyStream.request_params limit order_field filter_field
            cursor_field start_date st [] := by
    intro st
    unfold Collects.request_params
    by_cases hst : st = []
    · simp [hst]
    · simp [hst]
  refine ⟨?_, ?_, ?_, ?_, ?_, ?_, rfl⟩
  · rw [hinc stream_state]
    by_cases hst : stream_state = []
    · rw [if_pos hst, alookup_aset_self]
    · rw [if_neg hst, alookup_aset_ne _ _ _ _ hord, alookup_aset_self]
  · intro hst
    rw [hinc stream_state, if_pos hst, hbase,
      alookup_aset_ne _ _ _ _ hf1, alookup_aset_self]
  · intro hst
    rw [hinc stream_state, if_neg hst, alookup_aset_self]
  · rw [hcoll stream_state]
    by_cases hst : stream_state = []
    · rw [if_pos hst, alookup_aset_ne _ _ _ _ hord, hinc stream_state, if_pos hst,
        alookup_aset_self]
    · rw [if_neg hst, hinc stream_state, if_neg hst,
        alookup_aset_ne _ _ _ _ hord, alookup_aset_self]
  · intro hst
    rw [hcoll stream_state, if_pos hst, alookup_aset_self]
  · intro hst
    rw [hcoll stream_state, if_neg hst, hinc stream_state, if_neg hst, alookup_aset_self]

/-- Witness for C6 at concrete inputs: with the default field names and a
stored state the filter field carries the state cursor value, and the
Collects stream with no state seeds since_id at 0 and orders by id asc. -/
theorem first_page_request_params_spec_witness :
    alookup (IncrementalShopifyStream.request_params 250 "updated_at" "updated_at_min"
        "updated_at" "2021-07-01" [("updated_at", "2021-08-15")] [])
      "updated_at_min" = some (Val.s "2021-08-15") ∧
    alookup (Collects.request_params 250 "id" "since_id" "id" "2021-07-01" [] [])
      "since_id" = some (Val.i 0) ∧
    alookup (Collects.request_params 250 "id" "since_id" "id" "2021-07-01" [] [])
      "order" = some (Val.s "id asc") := by
  refine ⟨?_, ?_, ?_⟩
  · have h := (first_page_request_params_spec 250 "updated_at" "updated_at_min"
        "updated_at" "2021-07-01" [("updated_at", "2021-08-15")]
        (by decide)).2.2.1 (by decide)
    rw [h]
    decide
  · exact (first_page_request_params_spec 250 "id" "since_id" "id" "2021-07-01" []
        (by decide)).2.2.2.2.1 rfl
  · have h := (first_page_request_params_spec 250 "id" "since_id" "id" "2021-07-01" []
        (by decide)).2.2.2.1
    rw [h]
    decide
